import Mathlib

/-!
Verification development for the dataflow firetasks of the fireworks repository
(file fireworks/user_objects/firetasks/dataflow_tasks.py).

The embedding models the Python 2 code shallowly:

* JSON-like Python values (the task spec entries and the task context values)
  become the inductive type Value; Python dicts become association lists that
  preserve insertion order, with assignment replacing an existing key in place.
* Python exceptions become the error type PyErr through Except.  Each modelled
  raise site is annotated with the Python exception it stands for.
* External effects of command_line_tool (the file system and the launched child
  process) are abstracted into ProcEnv: a directory predicate, a fresh-name
  generator for uuid.uuid4, and the bytes the child process writes to standard
  output.  A successful process launch is assumed; launch failures are outside
  the model.
* The statement arglist = command on line 139 aliases the specification command
  list, so every arglist.append also extends that list.  command_line_tool
  therefore returns, next to the collected target records, the final content of
  that shared token list.
-/

/-- Python exceptions raised (or referenced) by the modelled code. -/
inductive PyErr where
  | keyError
  | typeError
  | valueError
  | attributeError
  | assertionError
  | notImplementedError
  | indexError
  | referenceError
deriving DecidableEq, Repr

/-- JSON-like Python values stored in command specs and in the task context. -/
inductive Value where
  | none
  | str (s : String)
  | int (n : Int)
  | list (l : List Value)
  | dict (d : List (String × Value))

/-- Python dicts with string keys, as insertion-ordered association lists. -/
abbrev Dict := List (String × Value)

/-- Dict lookup: first entry with the key, as Python d[k] / d.get(k). -/
def dictLookup : Dict → String → Option Value
  | [], _ => Option.none
  | (k, v) :: d, key => if k = key then some v else dictLookup d key

/-- Python membership test k in d.keys(). -/
def dictMem (d : Dict) (key : String) : Bool :=
  (dictLookup d key).isSome

/-- Python dict assignment d[k] = v: replace in place, else append at the end. -/
def dictInsert : Dict → String → Value → Dict
  | [], key, v => [(key, v)]
  | (k, w) :: d, key, v =>
    if k = key then (key, v) :: d else (k, w) :: dictInsert d key v

/-- Python equality as used by the modelled code (the in operator of line 283
compares a string against list elements).  Dict comparison is modelled as
entry-wise comparison in storage order. -/
def Value.beq : Value → Value → Bool
  | Value.none, Value.none => true
  | Value.str a, Value.str b => a == b
  | Value.int a, Value.int b => a == b
  | Value.list [], Value.list [] => true
  | Value.list (a :: as), Value.list (b :: bs) =>
    Value.beq a b && Value.beq (Value.list as) (Value.list bs)
  | Value.dict [], Value.dict [] => true
  | Value.dict ((ka, va) :: as), Value.dict ((kb, vb) :: bs) =>
    (ka == kb) && Value.beq va vb && Value.beq (Value.dict as) (Value.dict bs)
  | _, _ => false

/-- Python test v is None. -/
def isNoneV : Value → Bool
  | Value.none => true
  | _ => false

/-- Python comparison v == s against a string literal: any non-string value
compares unequal. -/
def isStrV (v : Value) (s : String) : Bool :=
  match v with
  | Value.str t => t = s
  | _ => false

/-- Python str.strip() with no argument: remove whitespace from both ends
(computable model of the strip call on line 210). -/
def pyStrip (s : String) : String :=
  String.mk (((s.toList.dropWhile Char.isWhitespace).reverse.dropWhile
    Char.isWhitespace).reverse)

/-- Python subscription v[k] with a string key: KeyError when the key is
missing from a dict, TypeError when v is not a dict. -/
def getItem (v : Value) (k : String) : Except PyErr Value :=
  match v with
  | Value.dict d =>
    match dictLookup d k with
    | some w => Except.ok w
    | Option.none => Except.error PyErr.keyError
  | _ => Except.error PyErr.typeError

/-- Python len(v): defined for strings, lists and dicts, TypeError otherwise. -/
def pyLen : Value → Except PyErr Nat
  | Value.str s => Except.ok s.length
  | Value.list l => Except.ok l.length
  | Value.dict d => Except.ok d.length
  | _ => Except.error PyErr.typeError

/-- Python iteration over a value, as used on line 90.  A string yields its
characters, a list its elements, a dict its keys (CPython 2 key order is
unspecified; it is modelled as insertion order), anything else raises
TypeError. -/
def pyIter : Value → Except PyErr (List Value)
  | Value.str s => Except.ok (s.toList.map (fun c => Value.str (String.mk [c])))
  | Value.list l => Except.ok l
  | Value.dict d => Except.ok (d.map (fun p => Value.str p.1))
  | _ => Except.error PyErr.typeError

/-! ## Chunk partitioning (ForeachTask, lines 295-300) -/

/-- Ceiling division (a + b - 1) / b, the value of ceil(a / b) for b > 0.
This is the chunk size the specification describes as ceil(L/C). -/
def spec_ceil (a b : Nat) : Nat :=
  (a + b - 1) / b

/-- Take n successive slices of size k, as the comprehension on line 300 does:
slice number i is l[i*k : i*k + k]. -/
def slices_go (k : Nat) : Nat → List α → List (List α)
  | 0, _ => []
  | n + 1, l => l.take k :: slices_go k n (l.drop k)

/-- The list comprehension on line 300 of the source,
[split_field[i : i + chunklen] for i in xrange(0, lensplit, chunklen)]:
the range has exactly ceil(lensplit / chunklen) iterations, one slice each.
A step of 0 would raise ValueError in Python; that case is unreachable in the
modelled call site (chunk_len is positive for a non-empty list) and is mapped
to the empty list. -/
def py_slices (k : Nat) (l : List α) : List (List α) :=
  if k = 0 then [] else slices_go k (spec_ceil l.length k) l

/-- Lines 297-299 of the source: chunklen = lensplit / nchunks, plus one when
the division has a remainder.  The Python 2 operator / on ints is floor
division, which agrees with Nat division on the non-negative values that reach
this code. -/
def chunk_len (lensplit nchunks : Nat) : Nat :=
  if lensplit % nchunks > 0 then lensplit / nchunks + 1 else lensplit / nchunks

/-- The chunks ForeachTask.run_task computes for a list and a chunk count. -/
def foreach_chunks (l : List α) (nchunks : Nat) : List (List α) :=
  py_slices (chunk_len l.length nchunks) l

/-! ## Result directives (FWAction) and spawned units (Firework) -/

/-- A spawned parallel unit: the Firework wrapping a SingleTask built on lines
306-317, flattened to the fields the constructor call sets. -/
structure Firework where
  task_function : Value
  task_inputs : Value
  task_outputs : Option Value
  chunk_number : Nat
  spec : Dict
  name : String

/-- The result directive FWAction, restricted to the keyword arguments the
modelled code passes: update_spec, mod_spec (each entry {_push: {label: item}}
encoded as the pair (label, item)), detours, defuse_workflow.  FWAction() with
no arguments is the record with all defaults. -/
structure FWAction where
  update_spec : Option Dict := Option.none
  mod_spec : Option (List (String × Value)) := Option.none
  detours : Option (List Firework) := Option.none
  defuse_workflow : Bool := false

/-! ## ForeachTask (lines 265-318) -/

/-- The ForeachTask parameters.  The optional chunk count (spec key
"number of chunks") is modelled as a natural number: the code only ever
divides by it after replacing a falsy value (absent or 0) by the list
length. -/
structure ForeachTask where
  function : Value
  split : Value
  inputs : Value
  outputs : Option Value := Option.none
  number_of_chunks : Option Nat := Option.none

/-- Lines 282-287: the split argument must be among the inputs; the in
operator of Python compares with ==. -/
def foreach_split_in_inputs (t : ForeachTask) : Bool :=
  match t.inputs with
  | Value.list li => li.any (fun w => Value.beq t.split w)
  | ni => Value.beq t.split ni

/-- Lines 302-317: one Firework per chunk, with the task context copied and
the split key replaced by the chunk, tagged with its 0-based index. -/
def foreach_fireworks (t : ForeachTask) (fw_spec : Dict) (s : String) :
    List (List Value) → Nat → List Firework
  | [], _ => []
  | c :: cs, index =>
    { task_function := t.function
      task_inputs := t.inputs
      task_outputs := t.outputs
      chunk_number := index
      spec := dictInsert fw_spec s (Value.list c)
      name := "ForeachTask " ++ toString index } ::
      foreach_fireworks t fw_spec s cs (index + 1)

/-- Lines 295-296: the chunk count parameter, with a falsy value (absent or 0)
replaced by the list length. -/
def foreach_nchunks (lensplit : Nat) : Option Nat → Nat
  | some n => if n = 0 then lensplit else n
  | Option.none => lensplit

/-- ForeachTask.run_task, lines 275-318.  Validation order follows the
source: split must be a string (TypeError), the context entry must exist
(KeyError from fw_spec[split_input]) and be a list (TypeError), split must be
among the inputs (ValueError); an empty list returns
FWAction(defuse_workflow=True); otherwise the chunk count defaults to the list
length when absent or falsy and the chunks become detour Fireworks. -/
def ForeachTask.run_task (t : ForeachTask) (fw_spec : Dict) : Except PyErr FWAction :=
  match t.split with
  | Value.str s =>
    match dictLookup fw_spec s with
    | Option.none => Except.error PyErr.keyError
    | some sv =>
      match sv with
      | Value.list split_field =>
        if foreach_split_in_inputs t then
          if split_field.length < 1 then
            Except.ok { defuse_workflow := true }
          else
            Except.ok { detours := some (foreach_fireworks t fw_spec s
              (foreach_chunks split_field (foreach_nchunks split_field.length t.number_of_chunks)) 0) }
        else Except.error PyErr.valueError
      | _ => Except.error PyErr.typeError
  | _ => Except.error PyErr.typeError

/-! ## command_line_tool (lines 104-213) -/

/-- The external world of command_line_tool: os.path.isdir, successive values
of uuid.uuid4 (numbered by a counter), and the decoded bytes the launched
child process writes to standard output.  Process launch is assumed to
succeed. -/
structure ProcEnv where
  isdir : String → Bool
  uuid : Nat → String
  pstdout : String

/-- A standard stream binding: unset, PIPE, or an opened file. -/
inductive StdStream where
  | noRedir
  | pipe
  | file (path : String)
deriving DecidableEq, Repr

/-- The mutable local state of command_line_tool, lines 139-143 (plus the
uuid counter of the environment). -/
structure CLState where
  arglist : List Value
  stdin : StdStream := StdStream.noRedir
  stdout : StdStream := StdStream.noRedir
  stderr : StdStream := StdStream.noRedir
  stdininp : Option String := Option.none
  uuidCount : Nat := 0

/-- Effect of one input binding on standard input. -/
inductive StdinEff where
  | keep
  | file (path : String)
  | pipe (inp : String)

/-- Effect of one output binding on the output streams. -/
inductive OutEff where
  | noEff
  | stdoutFile (path : String)
  | stderrFile (path : String)
  | stdoutPipe

/-- set_binding, lines 130-137: concatenate the prefix and separator entries
of the binding part when present.  Calling .keys() on a non-dict raises
AttributeError; appending a non-string to a string raises TypeError. -/
def set_binding (arg : Value) : Except PyErr String :=
  match arg with
  | Value.dict d =>
    if dictMem d "binding" then
      match (dictLookup d "binding").getD Value.none with
      | Value.dict b =>
        match (if dictMem b "prefix" then
                match (dictLookup b "prefix").getD Value.none with
                | Value.str p => Except.ok p
                | _ => Except.error PyErr.typeError
              else Except.ok "") with
        | Except.error e => Except.error e
        | Except.ok s1 =>
          if dictMem b "separator" then
            match (dictLookup b "separator").getD Value.none with
            | Value.str sep => Except.ok (s1 ++ sep)
            | _ => Except.error PyErr.typeError
          else Except.ok s1
      | _ => Except.error PyErr.attributeError
    else Except.ok ""
  | _ => Except.error PyErr.attributeError

/-- Lines 145-168 for one input binding: the decoration string, and the
standard-input effect.  The asserts of lines 147-152 raise AssertionError; an
unsupported source type raises NotImplementedError; opening a non-string path
or encoding a non-string value raises TypeError / AttributeError. -/
def input_arg_plan (arg : Value) : Except PyErr (String × StdinEff) :=
  match set_binding arg with
  | Except.error e => Except.error e
  | Except.ok argstr =>
    match arg with
    | Value.dict d =>
      if dictMem d "source" then
        match getItem ((dictLookup d "source").getD Value.none) "type" with
        | Except.error e => Except.error e
        | Except.ok sType =>
          if isNoneV sType then Except.error PyErr.assertionError
          else
            match getItem ((dictLookup d "source").getD Value.none) "value" with
            | Except.error e => Except.error e
            | Except.ok sValue =>
              match pyLen sValue with
              | Except.error e => Except.error e
              | Except.ok n =>
                if n = 0 then Except.error PyErr.assertionError
                else
                  if dictMem d "target" then
                    (let tgt := (dictLookup d "target").getD Value.none
                    if isNoneV tgt then Except.error PyErr.assertionError
                    else
                      match getItem tgt "type" with
                      | Except.error e => Except.error e
                      | Except.ok tType =>
                        if isStrV tType "stdin" then
                          if isStrV sType "path" then
                            match sValue with
                            | Value.str p => Except.ok (argstr, StdinEff.file p)
                            | _ => Except.error PyErr.typeError
                          else if isStrV sType "string" then
                            match sValue with
                            | Value.str sv => Except.ok (argstr, StdinEff.pipe sv)
                            | _ => Except.error PyErr.attributeError
                          else Except.error PyErr.notImplementedError
                        else Except.error PyErr.assertionError)
                  else
                    if isStrV sType "path" || isStrV sType "string" then
                      match sValue with
                      | Value.str sv => Except.ok (argstr ++ sv, StdinEff.keep)
                      | _ => Except.error PyErr.typeError
                    else Except.error PyErr.notImplementedError
      else Except.error PyErr.assertionError
    | _ => Except.error PyErr.attributeError

/-- Apply a standard-input effect to the state. -/
def apply_in_eff (eff : StdinEff) (st : CLState) : CLState :=
  match eff with
  | StdinEff.keep => st
  | StdinEff.file p => { st with stdin := StdStream.file p }
  | StdinEff.pipe inp => { st with stdin := StdStream.pipe, stdininp := some inp }

/-- Lines 169-170 / 195-196: append the composed token to arglist when it is
non-empty.  Through the alias of line 139 this also extends the command list
of the specification. -/
def append_token (argstr : String) (st : CLState) : CLState :=
  if argstr.length > 0 then { st with arglist := st.arglist ++ [Value.str argstr] } else st

/-- One iteration of the input loop, lines 145-170. -/
def process_input_arg (arg : Value) (st : CLState) : Except PyErr CLState :=
  match input_arg_plan arg with
  | Except.error e => Except.error e
  | Except.ok (argstr, eff) => Except.ok (append_token argstr (apply_in_eff eff st))

/-- Lines 173-194 for one output binding: the decoration string, the stream
effect, the binding after the in-place update of target.value for directory
targets, and the updated uuid counter. -/
def output_arg_plan (env : ProcEnv) (cnt : Nat) (arg : Value) :
    Except PyErr (String × OutEff × Value × Nat) :=
  match set_binding arg with
  | Except.error e => Except.error e
  | Except.ok argstr =>
    match arg with
    | Value.dict d =>
      if dictMem d "target" then
        (let tgt := (dictLookup d "target").getD Value.none
        if isNoneV tgt then Except.error PyErr.assertionError
        else
          match getItem tgt "type" with
          | Except.error e => Except.error e
          | Except.ok tType =>
            if isStrV tType "path" then
              match tgt with
              | Value.dict td =>
                if dictMem td "value" then
                  match pyLen ((dictLookup td "value").getD Value.none) with
                  | Except.error e => Except.error e
                  | Except.ok n =>
                    if n = 0 then Except.error PyErr.assertionError
                    else
                      match (dictLookup td "value").getD Value.none with
                      | Value.str p0 =>
                        (let p := if env.isdir p0 then p0 ++ "/" ++ env.uuid cnt else p0
                        let cnt1 := if env.isdir p0 then cnt + 1 else cnt
                        let arg1 := if env.isdir p0 then
                            Value.dict (dictInsert d "target"
                              (Value.dict (dictInsert td "value" (Value.str p))))
                          else arg
                        match dictLookup d "source" with
                        | Option.none => Except.error PyErr.keyError
                        | some src =>
                          match getItem src "type" with
                          | Except.error e => Except.error e
                          | Except.ok sType =>
                            if isStrV sType "stdout" then
                              Except.ok (argstr, OutEff.stdoutFile p, arg1, cnt1)
                            else if isStrV sType "stderr" then
                              Except.ok (argstr, OutEff.stderrFile p, arg1, cnt1)
                            else Except.ok (argstr ++ p, OutEff.noEff, arg1, cnt1))
                      | _ => Except.error PyErr.typeError
                else Except.error PyErr.assertionError
              | _ => Except.error PyErr.typeError
            else if isStrV tType "string" then
              Except.ok (argstr, OutEff.stdoutPipe, arg, cnt)
            else Except.error PyErr.notImplementedError)
      else Except.error PyErr.assertionError
    | _ => Except.error PyErr.attributeError

/-- Apply an output-stream effect to the state. -/
def apply_out_eff (eff : OutEff) (st : CLState) : CLState :=
  match eff with
  | OutEff.noEff => st
  | OutEff.stdoutFile p => { st with stdout := StdStream.file p }
  | OutEff.stderrFile p => { st with stderr := StdStream.file p }
  | OutEff.stdoutPipe => { st with stdout := StdStream.pipe }

/-- One iteration of the output loop, lines 173-196.  Returns the state and
the binding as left behind by the in-place mutation of target.value. -/
def process_output_arg (env : ProcEnv) (arg : Value) (st : CLState) :
    Except PyErr (CLState × Value) :=
  match output_arg_plan env st.uuidCount arg with
  | Except.error e => Except.error e
  | Except.ok (argstr, eff, arg1, cnt1) =>
    Except.ok (append_token argstr { apply_out_eff eff st with uuidCount := cnt1 }, arg1)

/-- The input loop of lines 144-170. -/
def run_inputs : List Value → CLState → Except PyErr CLState
  | [], st => Except.ok st
  | a :: rest, st =>
    match process_input_arg a st with
    | Except.error e => Except.error e
    | Except.ok st1 => run_inputs rest st1

/-- The output loop of lines 172-196, collecting the mutated bindings. -/
def run_outputs (env : ProcEnv) : List Value → CLState → Except PyErr (CLState × List Value)
  | [], st => Except.ok (st, [])
  | a :: rest, st =>
    match process_output_arg env a st with
    | Except.error e => Except.error e
    | Except.ok (st1, a1) =>
      match run_outputs env rest st1 with
      | Except.error e => Except.error e
      | Except.ok (st2, rest1) => Except.ok (st2, a1 :: rest1)

/-- Lines 203-211 for one output: the copy of a path source evaluates both
index expressions (the copy itself is a file-system effect outside the model),
a string target stores the stripped captured standard output into target.value
(AttributeError when standard output was not captured, from decode on None),
and the target record is what retlist collects. -/
def collect_output (res0 : Option String) (output : Value) : Except PyErr Value :=
  match getItem output "source" with
  | Except.error e => Except.error e
  | Except.ok src =>
    match getItem src "type" with
    | Except.error e => Except.error e
    | Except.ok sType =>
      match (if isStrV sType "path" then
              match getItem src "value" with
              | Except.error e => Except.error e
              | Except.ok _ =>
                match getItem output "target" with
                | Except.error e => Except.error e
                | Except.ok t0 =>
                  match getItem t0 "value" with
                  | Except.error e => Except.error e
                  | Except.ok _ => Except.ok ()
            else Except.ok ()) with
      | Except.error e => Except.error e
      | Except.ok _ =>
        match getItem output "target" with
        | Except.error e => Except.error e
        | Except.ok tgt =>
          match getItem tgt "type" with
          | Except.error e => Except.error e
          | Except.ok tType =>
            if isStrV tType "string" then
              match res0 with
              | some souts =>
                match tgt with
                | Value.dict td =>
                  Except.ok (Value.dict (dictInsert td "value" (Value.str (pyStrip souts))))
                | _ => Except.error PyErr.typeError
              | Option.none => Except.error PyErr.attributeError
            else Except.ok tgt

/-- The collection loop of lines 201-211. -/
def run_collect (res0 : Option String) : List Value → Except PyErr (List Value)
  | [] => Except.ok []
  | o :: rest =>
    match collect_output res0 o with
    | Except.error e => Except.error e
    | Except.ok r =>
      match run_collect res0 rest with
      | Except.error e => Except.error e
      | Except.ok rs => Except.ok (r :: rs)

/-- command_line_tool, lines 104-213.  The result is the retlist of target
records together with the final content of the token list that arglist aliases
(the command list of the specification).  res[0] of p.communicate is the
captured bytes when standard output was bound to PIPE and None otherwise. -/
def command_line_tool (env : ProcEnv) (command : Value)
    (inputs outputs : Option (List Value)) : Except PyErr (List Value × List Value) :=
  match command with
  | Value.list cs =>
    (let st0 : CLState := { arglist := cs }
    match (match inputs with
          | some ins => run_inputs ins st0
          | Option.none => Except.ok st0) with
    | Except.error e => Except.error e
    | Except.ok st1 =>
      match (match outputs with
            | some outs => run_outputs env outs st1
            | Option.none => Except.ok (st1, [])) with
      | Except.error e => Except.error e
      | Except.ok (st2, outs1) =>
        let res0 : Option String :=
          if st2.stdout = StdStream.pipe then some env.pstdout else Option.none
        match (match outputs with
              | some _ => run_collect res0 outs1
              | Option.none => Except.ok []) with
        | Except.error e => Except.error e
        | Except.ok retlist => Except.ok (retlist, st2.arglist))
  | _ => Except.error PyErr.attributeError

/-! ## CommandLineTask.run_task (lines 56-102) -/

/-- Lines 70-78 for one label part: a string is a reference resolved against
the task context (KeyError when the key is absent), a dict is used verbatim,
anything else raises ValueError (line 78). -/
def resolve_part (ld fw_spec : Dict) (key : String) (inp : Dict) : Except PyErr Dict :=
  if dictMem ld key then
    match (dictLookup ld key).getD Value.none with
    | Value.str item =>
      match dictLookup fw_spec item with
      | some v => Except.ok (dictInsert inp key v)
      | Option.none => Except.error PyErr.keyError
    | Value.dict dd => Except.ok (dictInsert inp key (Value.dict dd))
    | _ => Except.error PyErr.valueError
  else Except.ok inp

/-- Lines 68-79 for one label: look the label up in the command spec (KeyError
when absent, AttributeError from .keys() when not a dict), then resolve the
parts binding, source, target in that order. -/
def resolve_label (cmd_spec fw_spec : Dict) (l : String) : Except PyErr Value :=
  match dictLookup cmd_spec l with
  | Option.none => Except.error PyErr.keyError
  | some lv =>
    match lv with
    | Value.dict ld =>
      match resolve_part ld fw_spec "binding" [] with
      | Except.error e => Except.error e
      | Except.ok i1 =>
        match resolve_part ld fw_spec "source" i1 with
        | Except.error e => Except.error e
        | Except.ok i2 =>
          match resolve_part ld fw_spec "target" i2 with
          | Except.error e => Except.error e
          | Except.ok i3 => Except.ok (Value.dict i3)
    | _ => Except.error PyErr.attributeError

/-- The label-resolution loop of lines 66-79 for one label list.  The source
defaults a missing list on lines 60-63, but those assignments bind the
misspelled locals ilables and olables, so a missing parameter is still None
here, and iterating None raises TypeError. -/
def resolve_labels_list (cmd_spec fw_spec : Dict) : List String → Except PyErr (List Value)
  | [] => Except.ok []
  | l :: ls =>
    match resolve_label cmd_spec fw_spec l with
    | Except.error e => Except.error e
    | Except.ok v =>
      match resolve_labels_list cmd_spec fw_spec ls with
      | Except.error e => Except.error e
      | Except.ok rest => Except.ok (v :: rest)

/-- The label list as run_task receives it: iterating a present list resolves
each label in order, iterating the still-None default raises TypeError. -/
def resolve_iolabels (cmd_spec fw_spec : Dict) : Option (List String) → Except PyErr (List Value)
  | Option.none => Except.error PyErr.typeError
  | some ls => resolve_labels_list cmd_spec fw_spec ls

/-- Lines 97-99: output_dict[ol] = out over zip(olabels, outlist). -/
def build_output_dict (ols : List String) (outlist : List Value) : Dict :=
  (ols.zip outlist).foldl (fun d p => dictInsert d p.1 p.2) []

/-- Lines 89-91: one push entry per item of each output, iterating each output
value the Python way. -/
def build_mod_spec : List (String × Value) → Except PyErr (List (String × Value))
  | [] => Except.ok []
  | (ol, out) :: rest =>
    match pyIter out with
    | Except.error e => Except.error e
    | Except.ok items =>
      match build_mod_spec rest with
      | Except.error e => Except.error e
      | Except.ok tail => Except.ok (items.map (fun item => (ol, item)) ++ tail)

/-- The CommandLineTask parameters (required command_spec, optional inputs,
outputs, chunk_number). -/
structure CommandLineTask where
  command_spec : Dict
  inputs : Option (List String) := Option.none
  outputs : Option (List String) := Option.none
  chunk_number : Option Int := Option.none

/-- CommandLineTask.run_task, lines 56-102: resolve the input labels, then the
output labels (lines 60-63 fail to default a missing list, see
resolve_iolabels), read the command entry, run command_line_tool, and
propagate.  With results and a chunk number, push directives are built (an
empty label list would raise IndexError on olabels[0], a length mismatch with
several labels AssertionError); with results and no chunk number the update
maps each label to its collected record; with no results the empty FWAction is
returned. -/
def CommandLineTask.run_task (t : CommandLineTask) (env : ProcEnv) (fw_spec : Dict) :
    Except PyErr FWAction :=
  match resolve_iolabels t.command_spec fw_spec t.inputs with
  | Except.error e => Except.error e
  | Except.ok inputs =>
    match resolve_iolabels t.command_spec fw_spec t.outputs with
    | Except.error e => Except.error e
    | Except.ok outputs =>
      match dictLookup t.command_spec "command" with
      | Option.none => Except.error PyErr.keyError
      | some command =>
        match command_line_tool env command (some inputs) (some outputs) with
        | Except.error e => Except.error e
        | Except.ok (outlist, _final) =>
          if 0 < outlist.length then
            match t.chunk_number with
            | some _ =>
              match t.outputs with
              | Option.none => Except.error PyErr.typeError
              | some ols =>
                if 1 < ols.length then
                  if ols.length = outlist.length then
                    match build_mod_spec (ols.zip outlist) with
                    | Except.error e => Except.error e
                    | Except.ok ms => Except.ok { mod_spec := some ms }
                  else Except.error PyErr.assertionError
                else
                  match ols with
                  | [] => Except.error PyErr.indexError
                  | ol0 :: _ =>
                    Except.ok { mod_spec := some (outlist.map (fun out => (ol0, out))) }
            | Option.none =>
              match t.outputs with
              | Option.none => Except.error PyErr.typeError
              | some ols => Except.ok { update_spec := some (build_output_dict ols outlist) }
          else Except.ok {}

/-! ## Concrete fixtures for witnesses and counterexamples -/

/-- An environment with no directories, a fixed fresh-name source, and a child
process that writes hi plus a newline to standard output. -/
def env0 : ProcEnv :=
  { isdir := fun _ => false, uuid := fun _ => "generated", pstdout := "hi\n" }

/-- A three-element context list for the fan-out witnesses. -/
def l3 : List Value := [Value.int 1, Value.int 2, Value.int 3]

/-- A ten-element context list for the chunk-size counterexample. -/
def l10 : List Value :=
  [Value.int 0, Value.int 1, Value.int 2, Value.int 3, Value.int 4,
    Value.int 5, Value.int 6, Value.int 7, Value.int 8, Value.int 9]

/-- ForeachTask fixture: split key s among the inputs, two chunks. -/
def t1 : ForeachTask :=
  { function := Value.str "m.f", split := Value.str "s", inputs := Value.str "s",
    outputs := Option.none, number_of_chunks := some 2 }

/-- Context fixture for the fan-out witness. -/
def fw1 : Dict := [("s", Value.list l3)]

/-- ForeachTask fixture for the empty-split witness, with a chunk count set. -/
def t7 : ForeachTask :=
  { function := Value.str "m.f", split := Value.str "s", inputs := Value.str "s",
    outputs := Option.none, number_of_chunks := some 5 }

/-- Context fixture with an empty list under the split key. -/
def fw7 : Dict := [("s", Value.list [])]

/-- A source part: a literal string value x. -/
def srcA : Value := Value.dict [("type", Value.str "string"), ("value", Value.str "x")]

/-- A target part: path 1 (not a directory in env0). -/
def tgtA : Value := Value.dict [("type", Value.str "path"), ("value", Value.str "1")]

/-- A target part: path 2 (not a directory in env0). -/
def tgtB : Value := Value.dict [("type", Value.str "path"), ("value", Value.str "2")]

/-- CommandLineTask fixture for single-mode propagation with two outputs. -/
def cfg3 : CommandLineTask :=
  { command_spec :=
      [("command", Value.list [Value.str "prog"]),
        ("a", Value.dict [("source", srcA), ("target", tgtA)]),
        ("b", Value.dict [("source", srcA), ("target", tgtB)])],
    inputs := some [], outputs := some ["a", "b"], chunk_number := Option.none }

/-- CommandLineTask fixture with the outputs parameter omitted. -/
def cfg5none : CommandLineTask :=
  { command_spec := [("command", Value.list [Value.str "echo"])],
    inputs := some [], outputs := Option.none, chunk_number := Option.none }

/-- CommandLineTask fixture with an explicitly empty outputs list. -/
def cfg5empty : CommandLineTask :=
  { command_spec := [("command", Value.list [Value.str "echo"])],
    inputs := some [], outputs := some [], chunk_number := Option.none }

/-- CommandLineTask fixture with the inputs parameter omitted. -/
def cfg10a : CommandLineTask :=
  { command_spec := [("command", Value.list [Value.str "echo"])],
    inputs := Option.none, outputs := some [], chunk_number := Option.none }

/-- CommandLineTask fixture with inputs given and outputs omitted. -/
def cfg10b : CommandLineTask :=
  { command_spec := [("command", Value.list [Value.str "echo"])],
    inputs := some [], outputs := Option.none, chunk_number := Option.none }

/-- An input binding bound to stdin that carries a non-empty prefix
decoration. -/
def stdinArg : Value :=
  Value.dict
    [("binding", Value.dict [("prefix", Value.str "-x")]),
      ("source", Value.dict [("type", Value.str "string"), ("value", Value.str "hi")]),
      ("target", Value.dict [("type", Value.str "stdin"), ("value", Value.str "")])]

/-- An input binding bound to stdin with no decoration. -/
def stdinArgPlain : Value :=
  Value.dict
    [("source", Value.dict [("type", Value.str "string"), ("value", Value.str "hi")]),
      ("target", Value.dict [("type", Value.str "stdin"), ("value", Value.str "")])]

/-- An output binding that captures standard output into a string target. -/
def capOut : Value :=
  Value.dict
    [("source", Value.dict [("type", Value.str "stdout"), ("value", Value.str "")]),
      ("target", Value.dict [("type", Value.str "string"), ("value", Value.str "")])]

/-- A plain string input argument (source hi, no target). -/
def greetArg : Value :=
  Value.dict [("source", Value.dict [("type", Value.str "string"), ("value", Value.str "hi")])]

/-! ## Helper lemmas -/

theorem dictLookup_dictInsert_self (d : Dict) (k : String) (v : Value) :
    dictLookup (dictInsert d k v) k = some v := by
  induction d with
  | nil => simp [dictInsert, dictLookup]
  | cons p d ih =>
    obtain ⟨k1, v1⟩ := p
    by_cases h : k1 = k
    · subst h; simp [dictInsert, dictLookup]
    · simp [dictInsert, dictLookup, h, ih]

theorem slices_go_flatten (k : Nat) :
    ∀ (n : Nat) (l : List α), l.length ≤ n * k → (slices_go k n l).flatten = l := by
  intro n
  induction n with
  | zero =>
    intro l h
    have : l = [] := List.eq_nil_of_length_eq_zero (by omega)
    subst this; rfl
  | succ n ih =>
    intro l h
    have hlen : (l.drop k).length ≤ n * k := by
      rw [List.length_drop]
      have : (n + 1) * k = n * k + k := Nat.succ_mul n k
      omega
    simp only [slices_go, List.flatten_cons]
    rw [ih (l.drop k) hlen, List.take_append_drop]

theorem slices_go_le (k : Nat) :
    ∀ (n : Nat) (l : List α) (c : List α), c ∈ slices_go k n l → c.length ≤ k := by
  intro n
  induction n with
  | zero => intro l c hc; simp [slices_go] at hc
  | succ n ih =>
    intro l c hc
    simp only [slices_go, List.mem_cons] at hc
    rcases hc with hc | hc
    · subst hc
      rw [List.length_take]
      exact Nat.min_le_left _ _
    · exact ih (l.drop k) c hc

theorem slices_go_full (k : Nat) :
    ∀ (n : Nat) (l : List α), n * k < l.length →
      ∀ c ∈ (slices_go k (n + 1) l).dropLast, c.length = k := by
  intro n
  induction n with
  | zero => intro l h c hc; simp [slices_go] at hc
  | succ n ih =>
    intro l h c hc
    have hk : k ≤ l.length := by
      have h1 : k ≤ (n + 1) * k := Nat.le_mul_of_pos_left k (Nat.succ_pos n)
      omega
    have hstep : slices_go k (n + 1 + 1) l
        = l.take k :: ((l.drop k).take k :: slices_go k n ((l.drop k).drop k)) := rfl
    rw [hstep] at hc
    rw [show (l.take k :: ((l.drop k).take k :: slices_go k n ((l.drop k).drop k))).dropLast
        = l.take k :: ((l.drop k).take k :: slices_go k n ((l.drop k).drop k)).dropLast from rfl] at hc
    rcases List.mem_cons.mp hc with hc | hc
    · subst hc
      rw [List.length_take]
      exact Nat.min_eq_left hk
    · have hlt : n * k < (l.drop k).length := by
        rw [List.length_drop]
        have : (n + 1) * k = n * k + k := Nat.succ_mul n k
        omega
      exact ih (l.drop k) hlt c hc

theorem spec_ceil_succ (L k : Nat) (hk : 0 < k) (hL : 0 < L) :
    spec_ceil L k = (L - 1) / k + 1 := by
  unfold spec_ceil
  rw [show L + k - 1 = (L - 1) + k by omega, Nat.add_div_right _ hk]

theorem spec_ceil_mul_ge (k : Nat) (hk : 0 < k) (L : Nat) : L ≤ spec_ceil L k * k := by
  unfold spec_ceil
  have h1 := Nat.div_add_mod (L + k - 1) k
  have h2 := Nat.mod_lt (L + k - 1) hk
  rw [Nat.mul_comm]
  omega

theorem chunk_len_pos (L C : Nat) (hL : 0 < L) (hC : 0 < C) : 0 < chunk_len L C := by
  unfold chunk_len
  by_cases h : L % C > 0
  · simp [h]
  · rw [if_neg h]
    have hd : C ∣ L := Nat.dvd_of_mod_eq_zero (by omega)
    exact Nat.div_pos (Nat.le_of_dvd hL hd) hC

theorem chunk_len_eq_ceil (L C : Nat) (hC : 0 < C) : chunk_len L C = spec_ceil L C := by
  rcases Nat.eq_zero_or_pos L with hL | hL
  · subst hL
    unfold chunk_len spec_ceil
    simp only [Nat.zero_mod, Nat.zero_div, Nat.zero_add]
    rw [if_neg (by omega)]
    exact (Nat.div_eq_of_lt (by omega)).symm
  · rw [spec_ceil_succ L C hC hL]
    unfold chunk_len
    have h1 := Nat.div_add_mod L C
    by_cases h : L % C > 0
    · rw [if_pos h]
      have hm := Nat.mod_lt L hC
      have h4 : (L - 1) / C = L / C := by
        apply Nat.div_eq_of_lt_le
        · have hcomm : L / C * C = C * (L / C) := Nat.mul_comm _ _
          omega
        · have hs : (L / C + 1) * C = C * (L / C) + C := by
            rw [Nat.succ_mul, Nat.mul_comm]
          omega
      omega
    · rw [if_neg h]
      have hq : 0 < L / C := by
        have hd : C ∣ L := Nat.dvd_of_mod_eq_zero (by omega)
        exact Nat.div_pos (Nat.le_of_dvd hL hd) hC
      have h7 : (L - 1) / C = L / C - 1 := by
        apply Nat.div_eq_of_lt_le
        · have e1 : (L / C - 1 + 1) * C = (L / C - 1) * C + C := Nat.succ_mul _ _
          have e2 : L / C - 1 + 1 = L / C := by omega
          have e4 : (L / C - 1 + 1) * C = L / C * C := by rw [e2]
          have e3 : C * (L / C) = L / C * C := Nat.mul_comm _ _
          omega
        · have e1 : (L / C - 1 + 1) * C = (L / C - 1) * C + C := Nat.succ_mul _ _
          have e2 : L / C - 1 + 1 = L / C := by omega
          have e4 : (L / C - 1 + 1) * C = L / C * C := by rw [e2]
          have e3 : C * (L / C) = L / C * C := Nat.mul_comm _ _
          omega
      omega

theorem py_slices_flatten (k : Nat) (hk : 0 < k) (l : List α) : (py_slices k l).flatten = l := by
  unfold py_slices
  rw [if_neg (by omega)]
  exact slices_go_flatten k _ l (spec_ceil_mul_ge k hk l.length)

theorem py_slices_nil (k : Nat) : py_slices k ([] : List α) = [] := by
  unfold py_slices
  by_cases h : k = 0
  · rw [if_pos h]
  · rw [if_neg h]
    unfold spec_ceil
    rw [List.length_nil, Nat.zero_add, Nat.div_eq_of_lt (by omega)]
    rfl

theorem py_slices_cons (k : Nat) (hk : 0 < k) (l : List α) (hl : l ≠ []) :
    py_slices k l = l.take k :: py_slices k (l.drop k) := by
  have hL : 0 < l.length := List.length_pos.mpr hl
  unfold py_slices
  simp only [if_neg (show ¬ k = 0 by omega)]
  rw [List.length_drop]
  by_cases h : l.length ≤ k
  · have h1 : l.length - k = 0 := by omega
    rw [h1]
    have h2 : spec_ceil 0 k = 0 := by
      unfold spec_ceil
      exact Nat.div_eq_of_lt (by omega)
    have h3 : spec_ceil l.length k = 1 := by
      rw [spec_ceil_succ _ _ hk hL, Nat.div_eq_of_lt (by omega)]
    rw [h2, h3]
    rfl
  · have h3 : spec_ceil l.length k = spec_ceil (l.length - k) k + 1 := by
      rw [spec_ceil_succ _ _ hk hL, spec_ceil_succ _ _ hk (by omega)]
      rw [show l.length - 1 = (l.length - k - 1) + k by omega, Nat.add_div_right _ hk]
    rw [h3]
    rfl

theorem foreach_fireworks_map_split (t : ForeachTask) (fw_spec : Dict) (s : String) :
    ∀ (cs : List (List Value)) (i : Nat),
      (foreach_fireworks t fw_spec s cs i).map (fun fw => dictLookup fw.spec s)
        = cs.map (fun c => some (Value.list c)) := by
  intro cs
  induction cs with
  | nil => intro i; rfl
  | cons c cs ih =>
    intro i
    simp [foreach_fireworks, ih, dictLookup_dictInsert_self]

/-! ## Claims about the chunk partitioner -/

/-- C1: for every non-empty list stored under the split key and every chunk
count C with 1 <= C <= length, ForeachTask.run_task spawns one detour Firework
per chunk, each carrying its chunk under the split key, the chunks are the
contiguous order-preserving slices foreach_chunks computes, and their
concatenation in order reproduces the original list exactly. -/
theorem c1_foreach_chunks_concat (t : ForeachTask) (fw_spec : Dict) (s : String)
    (l : List Value) (C : Nat)
    (hs : t.split = Value.str s) (hi : t.inputs = Value.str s)
    (hn : t.number_of_chunks = some C)
    (hl : dictLookup fw_spec s = some (Value.list l))
    (hC : 1 ≤ C) (hCL : C ≤ l.length) :
    ForeachTask.run_task t fw_spec =
        Except.ok { detours := some (foreach_fireworks t fw_spec s (foreach_chunks l C) 0) } ∧
    (foreach_fireworks t fw_spec s (foreach_chunks l C) 0).map (fun fw => dictLookup fw.spec s)
        = (foreach_chunks l C).map (fun c => some (Value.list c)) ∧
    (foreach_chunks l C).flatten = l := by
  have hL : 0 < l.length := by omega
  have hlt : ¬ (l.length < 1) := by omega
  have hC0 : ¬ (C = 0) := by omega
  have hmem : foreach_split_in_inputs t = true := by
    simp [foreach_split_in_inputs, hi, hs, Value.beq]
  refine ⟨?_, foreach_fireworks_map_split t fw_spec s _ 0, ?_⟩
  · simp [ForeachTask.run_task, hs, hl, hmem, hn, foreach_nchunks, hlt, hC0]
  · exact py_slices_flatten _ (chunk_len_pos l.length C hL hC) l

/-- Witness for C1 at a three-element list split into two chunks. -/
theorem c1_foreach_chunks_concat_witness :
    ForeachTask.run_task t1 fw1 =
        Except.ok { detours := some (foreach_fireworks t1 fw1 "s" (foreach_chunks l3 2) 0) } ∧
    (foreach_fireworks t1 fw1 "s" (foreach_chunks l3 2) 0).map (fun fw => dictLookup fw.spec "s")
        = (foreach_chunks l3 2).map (fun c => some (Value.list c)) ∧
    (foreach_chunks l3 2).flatten = l3 :=
  c1_foreach_chunks_concat t1 fw1 "s" l3 2 rfl rfl rfl rfl (by decide) (by decide)

/-- C2 counterexample: for the ten-element list with chunk count 4 (which
satisfies 1 <= C <= L), the chunk sizes are 3, 3, 3, 1, and two chunks differ
in size by more than one, refuting the claim that any two chunk sizes differ
by at most 1. -/
theorem c2_chunk_size_counterexample :
    (1 ≤ 4 ∧ 4 ≤ l10.length) ∧
    (foreach_chunks l10 4).map List.length = [3, 3, 3, 1] ∧
    ¬ (∀ a ∈ (foreach_chunks l10 4).map List.length,
        ∀ b ∈ (foreach_chunks l10 4).map List.length, a ≤ b + 1) := by
  exact ⟨by decide, by decide, by decide⟩

/-- C2 amended: for every list of length L and chunk count C with
1 <= C <= L, every chunk produced by the partitioner of ForeachTask.run_task
except possibly the last has size ceil(L/C), and every chunk (the last
included) has size at most ceil(L/C); the last chunk may be shorter by more
than one, so chunk sizes can differ by more than 1. -/
theorem c2_chunk_sizes_amended (l : List Value) (C : Nat)
    (hC : 1 ≤ C) (hCL : C ≤ l.length) :
    (∀ c ∈ (foreach_chunks l C).dropLast, c.length = spec_ceil l.length C) ∧
    (∀ c ∈ foreach_chunks l C, c.length ≤ spec_ceil l.length C) := by
  have hL : 0 < l.length := by omega
  have hk : 0 < chunk_len l.length C := chunk_len_pos l.length C hL hC
  have hck : chunk_len l.length C = spec_ceil l.length C := chunk_len_eq_ceil _ _ hC
  constructor
  · intro c hc
    rw [← hck]
    unfold foreach_chunks py_slices at hc
    rw [if_neg (by omega)] at hc
    rw [spec_ceil_succ l.length (chunk_len l.length C) hk hL] at hc
    apply slices_go_full (chunk_len l.length C) ((l.length - 1) / chunk_len l.length C) l ?_ c hc
    have := Nat.div_mul_le_self (l.length - 1) (chunk_len l.length C)
    omega
  · intro c hc
    rw [← hck]
    unfold foreach_chunks py_slices at hc
    rw [if_neg (by omega)] at hc
    exact slices_go_le _ _ _ _ hc

/-- Witness for the amended C2 at a three-element list split into two chunks
of sizes 2 and 1, both bounded by ceil(3/2) = 2. -/
theorem c2_chunk_sizes_amended_witness :
    (1 ≤ 2 ∧ 2 ≤ l3.length) ∧
    ((∀ c ∈ (foreach_chunks l3 2).dropLast, c.length = spec_ceil l3.length 2) ∧
      (∀ c ∈ foreach_chunks l3 2, c.length ≤ spec_ceil l3.length 2)) :=
  ⟨by decide, c2_chunk_sizes_amended l3 2 (by decide) (by decide)⟩

/-- C7: when the split key holds an empty list (and the split argument passes
the type and membership validation), ForeachTask.run_task returns the defuse
directive with no detours, whatever the requested chunk count is. -/
theorem c7_empty_split_defuse (t : ForeachTask) (fw_spec : Dict) (s : String)
    (hs : t.split = Value.str s)
    (hl : dictLookup fw_spec s = some (Value.list []))
    (hmem : foreach_split_in_inputs t = true) :
    ForeachTask.run_task t fw_spec = Except.ok { defuse_workflow := true } ∧
    ({ defuse_workflow := true } : FWAction).detours = Option.none := by
  constructor
  · simp [ForeachTask.run_task, hs, hl, hmem]
  · rfl

/-- Witness for C7 with chunk count 5 and an empty list under the split key. -/
theorem c7_empty_split_defuse_witness :
    ForeachTask.run_task t7 fw7 = Except.ok { defuse_workflow := true } ∧
    ({ defuse_workflow := true } : FWAction).detours = Option.none :=
  c7_empty_split_defuse t7 fw7 "s" rfl rfl
    (by simp [foreach_split_in_inputs, t7, Value.beq])

/-! ## Claims about label resolution and the zero-output path -/

/-- C5 (code bug): with an explicitly empty outputs list run_task returns the
empty no-op FWAction, but when the optional outputs parameter is omitted the
defaulting on lines 60-63 binds the misspelled locals ilables and olables, the
resolution loop iterates None, and run_task raises TypeError instead of
returning the no-op directive the claim promises. -/
theorem c5_zero_outputs_bug :
    CommandLineTask.run_task cfg5none env0 [] = Except.error PyErr.typeError ∧
    CommandLineTask.run_task cfg5empty env0 [] = Except.ok ({} : FWAction) :=
  ⟨rfl, rfl⟩

/-- C10: an omitted inputs or outputs parameter is not treated as an empty
list: the resolution loop iterates the still-None label list (the defaulting
assignments of lines 60-63 bind the misspelled names ilables and olables) and
run_task fails with TypeError. -/
theorem c10_none_labels_type_error (t : CommandLineTask) (env : ProcEnv) (fw_spec : Dict) :
    (t.inputs = Option.none →
      CommandLineTask.run_task t env fw_spec = Except.error PyErr.typeError) ∧
    (∀ ins, resolve_iolabels t.command_spec fw_spec t.inputs = Except.ok ins →
      t.outputs = Option.none →
      CommandLineTask.run_task t env fw_spec = Except.error PyErr.typeError) := by
  constructor
  · intro h
    simp [CommandLineTask.run_task, h, resolve_iolabels]
  · intro ins hins h
    unfold CommandLineTask.run_task
    rw [hins, h]
    simp [resolve_iolabels]

/-- Witness for C10: omitting inputs, or omitting outputs with inputs given,
raises TypeError. -/
theorem c10_none_labels_type_error_witness :
    CommandLineTask.run_task cfg10a env0 [] = Except.error PyErr.typeError ∧
    CommandLineTask.run_task cfg10b env0 [] = Except.error PyErr.typeError :=
  ⟨(c10_none_labels_type_error cfg10a env0 []).1 rfl,
    (c10_none_labels_type_error cfg10b env0 []).2 [] rfl rfl⟩

/-- C6 counterexample: a part that is neither a string nor a dict makes
resolution fail with ValueError (line 78), not TypeError; a string reference
to an absent context key fails with KeyError (the Python dict lookup on line
74), not ReferenceError. -/
theorem c6_resolution_error_counterexample :
    resolve_iolabels [("x", Value.dict [("source", Value.int 5)])] [] (some ["x"])
        = Except.error PyErr.valueError ∧
    PyErr.valueError ≠ PyErr.typeError ∧
    resolve_iolabels [("x", Value.dict [("source", Value.str "missing")])] [] (some ["x"])
        = Except.error PyErr.keyError ∧
    PyErr.keyError ≠ PyErr.referenceError :=
  ⟨rfl, by decide, rfl, by decide⟩

/-- C6 amended: during binding resolution, a binding, source or target part
that is a plain string naming an absent task-context key makes resolution fail
with KeyError, and a part that is neither a string reference nor a dict makes
it fail with ValueError. -/
theorem c6_resolution_error_amended (fw_spec : Dict) (lbl r : String) (k : String)
    (item : Value)
    (hk : k = "binding" ∨ k = "source" ∨ k = "target") :
    (dictLookup fw_spec r = Option.none →
      resolve_iolabels [(lbl, Value.dict [(k, Value.str r)])] fw_spec (some [lbl])
        = Except.error PyErr.keyError) ∧
    ((∀ s, item ≠ Value.str s) → (∀ dd, item ≠ Value.dict dd) →
      resolve_iolabels [(lbl, Value.dict [(k, item)])] fw_spec (some [lbl])
        = Except.error PyErr.valueError) := by
  constructor
  · intro h
    rcases hk with hk | hk | hk <;> subst hk <;>
      simp [resolve_iolabels, resolve_labels_list, resolve_label, resolve_part,
        dictMem, dictLookup, h]
  · intro h1 h2
    cases item <;>
      first
      | exact absurd rfl (h1 _)
      | exact absurd rfl (h2 _)
      | (rcases hk with hk | hk | hk <;> subst hk <;>
          simp [resolve_iolabels, resolve_labels_list, resolve_label, resolve_part,
            dictMem, dictLookup])

/-- Witness for the amended C6: a target part referencing an absent key gives
KeyError, a target part that is an int gives ValueError. -/
theorem c6_resolution_error_amended_witness :
    resolve_iolabels [("x", Value.dict [("target", Value.str "gone")])] [] (some ["x"])
        = Except.error PyErr.keyError ∧
    resolve_iolabels [("x", Value.dict [("target", Value.int 7)])] [] (some ["x"])
        = Except.error PyErr.valueError :=
  ⟨(c6_resolution_error_amended [] "x" "gone" "target" (Value.int 7)
      (Or.inr (Or.inr rfl))).1 rfl,
    (c6_resolution_error_amended [] "x" "gone" "target" (Value.int 7)
      (Or.inr (Or.inr rfl))).2
      (fun _ h => Value.noConfusion h) (fun _ h => Value.noConfusion h)⟩

/-! ## Helper lemmas for the propagation claims -/

theorem dictLookup_append (a b : Dict) (key : String) :
    dictLookup (a ++ b) key
      = (match dictLookup a key with
        | some v => some v
        | Option.none => dictLookup b key) := by
  induction a with
  | nil => rfl
  | cons p a ih =>
    obtain ⟨k1, v1⟩ := p
    by_cases h : k1 = key
    · simp [dictLookup, h]
    · simp [dictLookup, h, ih]

theorem dictMem_append (a b : Dict) (key : String) :
    dictMem (a ++ b) key = (dictMem a key || dictMem b key) := by
  unfold dictMem
  rw [dictLookup_append]
  cases dictLookup a key <;> simp

theorem dictInsert_not_mem (d : Dict) (k : String) (v : Value)
    (h : dictMem d k = false) : dictInsert d k v = d ++ [(k, v)] := by
  induction d with
  | nil => rfl
  | cons p d ih =>
    obtain ⟨k1, v1⟩ := p
    by_cases hk : k1 = k
    · subst hk
      simp [dictMem, dictLookup] at h
    · simp only [dictMem, dictLookup, hk, if_false, if_neg hk] at h ⊢
      rw [dictInsert]
      rw [if_neg hk, ih h]
      rfl

theorem build_output_dict_aux (ps : List (String × Value)) :
    ∀ (acc : Dict), (∀ p ∈ ps, dictMem acc p.1 = false) → (ps.map Prod.fst).Nodup →
      ps.foldl (fun d p => dictInsert d p.1 p.2) acc = acc ++ ps := by
  induction ps with
  | nil => intro acc _ _; simp
  | cons p ps ih =>
    intro acc hmem hnd
    obtain ⟨k, v⟩ := p
    simp only [List.map_cons, List.nodup_cons] at hnd
    simp only [List.foldl_cons]
    rw [show dictInsert acc k v
        = acc ++ [(k, v)] from dictInsert_not_mem acc k v (hmem (k, v) (by simp))]
    rw [ih (acc ++ [(k, v)]) ?_ hnd.2]
    · simp
    · intro q hq
      rw [dictMem_append]
      have h1 : dictMem acc q.1 = false := hmem q (by simp [hq])
      have hqk : ¬ (k = q.1) := by
        intro he
        exact hnd.1 (he ▸ List.mem_map_of_mem Prod.fst hq)
      have h2 : dictMem [(k, v)] q.1 = false := by
        simp [dictMem, dictLookup, hqk]
      rw [h1, h2]
      rfl

theorem map_fst_zip_sublist (ols : List String) (outs : List Value) :
    ((ols.zip outs).map Prod.fst).Sublist ols := by
  induction ols generalizing outs with
  | nil => simp
  | cons a ols ih =>
    cases outs with
    | nil => simp
    | cons b outs =>
      simpa using (ih outs).cons₂ a

theorem build_output_dict_zip_nodup (ols : List String) (outs : List Value)
    (h : ols.Nodup) : build_output_dict ols outs = ols.zip outs := by
  unfold build_output_dict
  rw [build_output_dict_aux (ols.zip outs) [] (fun p _ => rfl)
    (((map_fst_zip_sublist ols outs)).nodup h)]
  rfl

/-! ## Claims about single-mode result propagation -/

/-- C3 counterexample: with labels a and b bound to path targets whose
finalized values are the strings 1 and 2, the single-mode update directive of
CommandLineTask.run_task maps each label to the full target record (a dict
with type and value), not to the raw value the claim promises. -/
theorem c3_single_mode_counterexample :
    CommandLineTask.run_task cfg3 env0 [] =
        Except.ok { update_spec := some [("a", tgtA), ("b", tgtB)] } ∧
    tgtA ≠ Value.str "1" ∧ tgtB ≠ Value.str "2" :=
  ⟨rfl, fun h => Value.noConfusion h, fun h => Value.noConfusion h⟩

/-- C3 amended: in single-mode propagation (chunk_number unset), whenever the
collected output list is non-empty, the update directive pairs each output
label with the corresponding full finalized target record returned by
command_line_tool (the raw value is not unwrapped), in label order. -/
theorem c3_single_mode_amended (t : CommandLineTask) (env : ProcEnv) (fw_spec : Dict)
    (ins outs outlist final : List Value) (cmd : Value) (ols : List String)
    (hchunk : t.chunk_number = Option.none)
    (holab : t.outputs = some ols)
    (hin : resolve_iolabels t.command_spec fw_spec t.inputs = Except.ok ins)
    (hout : resolve_labels_list t.command_spec fw_spec ols = Except.ok outs)
    (hcmd : dictLookup t.command_spec "command" = some cmd)
    (hclt : command_line_tool env cmd (some ins) (some outs) = Except.ok (outlist, final))
    (hlen : 0 < outlist.length)
    (hnd : ols.Nodup) :
    CommandLineTask.run_task t env fw_spec =
      Except.ok { update_spec := some (ols.zip outlist) } := by
  unfold CommandLineTask.run_task
  rw [hin, holab]
  simp only [resolve_iolabels]
  simp [hout, hcmd, hclt, hchunk, hlen, build_output_dict_zip_nodup ols outlist hnd]

/-- Witness for the amended C3 at the two-output fixture: the update pairs
label a with the record for path 1 and label b with the record for path 2. -/
theorem c3_single_mode_amended_witness :
    CommandLineTask.run_task cfg3 env0 [] =
      Except.ok { update_spec := some (["a", "b"].zip [tgtA, tgtB]) } :=
  c3_single_mode_amended cfg3 env0 [] []
    [Value.dict [("source", srcA), ("target", tgtA)],
      Value.dict [("source", srcA), ("target", tgtB)]]
    [tgtA, tgtB]
    [Value.str "prog", Value.str "1", Value.str "2"]
    (Value.list [Value.str "prog"]) ["a", "b"]
    rfl rfl rfl rfl rfl rfl (by decide) (by decide)

/-! ## Claims about the invocation builder -/

/-- C4 counterexample: an input binding bound to stdin that carries a
non-empty prefix decoration still appends one argument token (the decoration
string) on line 170, so the final argument vector is not the bare command. -/
theorem c4_stdin_token_counterexample :
    command_line_tool env0 (Value.list [Value.str "cat"]) (some [stdinArg]) Option.none
        = Except.ok ([], [Value.str "cat", Value.str "-x"]) ∧
    ([Value.str "cat", Value.str "-x"] : List Value) ≠ [Value.str "cat"] :=
  ⟨rfl, fun h => List.noConfusion (List.cons.inj h).2⟩

/-- C4 amended: an input binding whose target type is stdin never contributes
its source value as an argument token: the value is delivered through standard
input (PIPE payload for a string source, opened file for a path source), and
the only token such a binding can contribute is its decoration string, which
is appended exactly when it is non-empty. -/
theorem c4_stdin_token_amended (d sd : Dict) (tv : Value) (v pfx : String) (st : CLState)
    (hsb : set_binding (Value.dict d) = Except.ok pfx)
    (hsrc : dictLookup d "source" = some (Value.dict sd))
    (hsv : dictLookup sd "value" = some (Value.str v))
    (hv : v ≠ "")
    (htgt : dictLookup d "target" = some tv)
    (htn : isNoneV tv = false)
    (htt : getItem tv "type" = Except.ok (Value.str "stdin")) :
    (dictLookup sd "type" = some (Value.str "string") →
      process_input_arg (Value.dict d) st =
        Except.ok (append_token pfx
          { st with stdin := StdStream.pipe, stdininp := some v })) ∧
    (dictLookup sd "type" = some (Value.str "path") →
      process_input_arg (Value.dict d) st =
        Except.ok (append_token pfx { st with stdin := StdStream.file v })) := by
  have hlen : ¬ (v.length = 0) := by
    intro h0
    apply hv
    cases v with
    | mk data =>
      simp [String.length] at h0
      simp [h0]
  have hval : getItem (Value.dict sd) "value" = Except.ok (Value.str v) := by
    simp [getItem, hsv]
  constructor
  · intro hty
    have hty2 : getItem (Value.dict sd) "type" = Except.ok (Value.str "string") := by
      simp [getItem, hty]
    have hnn : isNoneV (Value.str "string") = false := rfl
    unfold process_input_arg input_arg_plan
    rw [hsb]
    simp [dictMem, hsrc, htgt, hty2, hval, htt, htn, hnn, pyLen, isStrV, hlen,
      apply_in_eff]
  · intro hty
    have hty2 : getItem (Value.dict sd) "type" = Except.ok (Value.str "path") := by
      simp [getItem, hty]
    have hnn : isNoneV (Value.str "path") = false := rfl
    unfold process_input_arg input_arg_plan
    rw [hsb]
    simp [dictMem, hsrc, htgt, hty2, hval, htt, htn, hnn, pyLen, isStrV, hlen,
      apply_in_eff]

/-- Witness for the amended C4: the undecorated stdin binding contributes no
token at all and pipes the value hi to standard input. -/
theorem c4_stdin_token_amended_witness :
    process_input_arg stdinArgPlain ({ arglist := [Value.str "cat"] } : CLState) =
      Except.ok (append_token ""
        { ({ arglist := [Value.str "cat"] } : CLState) with
            stdin := StdStream.pipe, stdininp := some "hi" }) :=
  (c4_stdin_token_amended
    [("source", Value.dict [("type", Value.str "string"), ("value", Value.str "hi")]),
      ("target", Value.dict [("type", Value.str "stdin"), ("value", Value.str "")])]
    [("type", Value.str "string"), ("value", Value.str "hi")]
    (Value.dict [("type", Value.str "stdin"), ("value", Value.str "")])
    "hi" "" ({ arglist := [Value.str "cat"] } : CLState)
    rfl rfl rfl (by decide) rfl rfl rfl).1 rfl

/-- C8 counterexample: an invocation with two output bindings whose target
type is string does not fail fast: command_line_tool succeeds and both
collected records hold the same captured (stripped) standard output. -/
theorem c8_double_capture_counterexample :
    command_line_tool env0 (Value.list [Value.str "prog"]) Option.none (some [capOut, capOut])
        = Except.ok ([Value.dict [("type", Value.str "string"), ("value", Value.str "hi")],
            Value.dict [("type", Value.str "string"), ("value", Value.str "hi")]],
          [Value.str "prog"]) ∧
    ∀ e : PyErr,
      command_line_tool env0 (Value.list [Value.str "prog"]) Option.none (some [capOut, capOut])
        ≠ Except.error e := by
  have hok : command_line_tool env0 (Value.list [Value.str "prog"]) Option.none
      (some [capOut, capOut])
      = Except.ok ([Value.dict [("type", Value.str "string"), ("value", Value.str "hi")],
          Value.dict [("type", Value.str "string"), ("value", Value.str "hi")]],
        [Value.str "prog"]) := rfl
  exact ⟨hok, fun e h => Except.noConfusion (h.symm.trans hok)⟩

/-- C8 amended: the invocation builder accepts two (or more) string-typed
output targets without any error: standard output is captured once, no
argument token is contributed, and every such output record receives the same
captured, whitespace-stripped standard output in its value field. -/
theorem c8_double_capture_amended (env : ProcEnv) (cs : List Value)
    (d1 d2 td1 td2 sd1 sd2 : Dict)
    (hb1 : dictLookup d1 "binding" = Option.none)
    (ht1 : dictLookup d1 "target" = some (Value.dict td1))
    (htt1 : dictLookup td1 "type" = some (Value.str "string"))
    (hs1 : dictLookup d1 "source" = some (Value.dict sd1))
    (hst1 : dictLookup sd1 "type" = some (Value.str "stdout"))
    (hb2 : dictLookup d2 "binding" = Option.none)
    (ht2 : dictLookup d2 "target" = some (Value.dict td2))
    (htt2 : dictLookup td2 "type" = some (Value.str "string"))
    (hs2 : dictLookup d2 "source" = some (Value.dict sd2))
    (hst2 : dictLookup sd2 "type" = some (Value.str "stdout")) :
    command_line_tool env (Value.list cs) Option.none
        (some [Value.dict d1, Value.dict d2]) =
      Except.ok ([Value.dict (dictInsert td1 "value" (Value.str (pyStrip env.pstdout))),
          Value.dict (dictInsert td2 "value" (Value.str (pyStrip env.pstdout)))], cs) := by
  have hsb1 : set_binding (Value.dict d1) = Except.ok "" := by
    simp [set_binding, dictMem, hb1]
  have hsb2 : set_binding (Value.dict d2) = Except.ok "" := by
    simp [set_binding, dictMem, hb2]
  have hplan1 : ∀ cnt, output_arg_plan env cnt (Value.dict d1)
      = Except.ok ("", OutEff.stdoutPipe, Value.dict d1, cnt) := by
    intro cnt
    unfold output_arg_plan
    rw [hsb1]
    simp [dictMem, ht1, getItem, htt1, isNoneV, isStrV]
  have hplan2 : ∀ cnt, output_arg_plan env cnt (Value.dict d2)
      = Except.ok ("", OutEff.stdoutPipe, Value.dict d2, cnt) := by
    intro cnt
    unfold output_arg_plan
    rw [hsb2]
    simp [dictMem, ht2, getItem, htt2, isNoneV, isStrV]
  have hpo1 : ∀ st, process_output_arg env (Value.dict d1) st
      = Except.ok ({ st with stdout := StdStream.pipe }, Value.dict d1) := by
    intro st
    unfold process_output_arg
    rw [hplan1]
    simp [append_token, apply_out_eff]
  have hpo2 : ∀ st, process_output_arg env (Value.dict d2) st
      = Except.ok ({ st with stdout := StdStream.pipe }, Value.dict d2) := by
    intro st
    unfold process_output_arg
    rw [hplan2]
    simp [append_token, apply_out_eff]
  have hco1 : collect_output (some env.pstdout) (Value.dict d1)
      = Except.ok (Value.dict (dictInsert td1 "value" (Value.str (pyStrip env.pstdout)))) := by
    unfold collect_output
    simp [getItem, hs1, hst1, ht1, htt1, isStrV]
  have hco2 : collect_output (some env.pstdout) (Value.dict d2)
      = Except.ok (Value.dict (dictInsert td2 "value" (Value.str (pyStrip env.pstdout)))) := by
    unfold collect_output
    simp [getItem, hs2, hst2, ht2, htt2, isStrV]
  unfold command_line_tool
  simp [run_outputs, hpo1, hpo2, run_collect, hco1, hco2]

/-- Witness for the amended C8 at a concrete two-capture invocation whose
process writes hi plus a newline: both records finalize to hi. -/
theorem c8_double_capture_amended_witness :
    command_line_tool env0 (Value.list [Value.str "prog"]) Option.none
        (some [Value.dict [("source", Value.dict [("type", Value.str "stdout"),
            ("value", Value.str "")]),
          ("target", Value.dict [("type", Value.str "string"), ("value", Value.str "")])],
          Value.dict [("source", Value.dict [("type", Value.str "stdout"),
            ("value", Value.str "")]),
          ("target", Value.dict [("type", Value.str "string"), ("value", Value.str "")])]]) =
      Except.ok ([Value.dict (dictInsert [("type", Value.str "string"),
          ("value", Value.str "")] "value" (Value.str (pyStrip env0.pstdout))),
        Value.dict (dictInsert [("type", Value.str "string"),
          ("value", Value.str "")] "value" (Value.str (pyStrip env0.pstdout)))],
        [Value.str "prog"]) :=
  c8_double_capture_amended env0 [Value.str "prog"]
    [("source", Value.dict [("type", Value.str "stdout"), ("value", Value.str "")]),
      ("target", Value.dict [("type", Value.str "string"), ("value", Value.str "")])]
    [("source", Value.dict [("type", Value.str "stdout"), ("value", Value.str "")]),
      ("target", Value.dict [("type", Value.str "string"), ("value", Value.str "")])]
    [("type", Value.str "string"), ("value", Value.str "")]
    [("type", Value.str "string"), ("value", Value.str "")]
    [("type", Value.str "stdout"), ("value", Value.str "")]
    [("type", Value.str "stdout"), ("value", Value.str "")]
    rfl rfl rfl rfl rfl rfl rfl rfl rfl rfl

/-! ## Claims about the shared command token list -/

theorem apply_in_eff_arglist (eff : StdinEff) (st : CLState) :
    (apply_in_eff eff st).arglist = st.arglist := by
  cases eff <;> rfl

theorem apply_out_eff_arglist (eff : OutEff) (st : CLState) :
    (apply_out_eff eff st).arglist = st.arglist := by
  cases eff <;> rfl

theorem append_token_arglist (s : String) (st : CLState) :
    (append_token s st).arglist
      = st.arglist ++ (if s.length > 0 then [Value.str s] else []) := by
  unfold append_token
  split <;> simp

theorem process_input_arg_extends (a : Value) (st st1 : CLState)
    (h : process_input_arg a st = Except.ok st1) :
    ∃ tail, st1.arglist = st.arglist ++ tail := by
  unfold process_input_arg at h
  cases hp : input_arg_plan a with
  | error e => rw [hp] at h; exact absurd h (by simp)
  | ok pr =>
    rw [hp] at h
    obtain ⟨argstr, eff⟩ := pr
    injection h with h
    subst h
    refine ⟨if argstr.length > 0 then [Value.str argstr] else [], ?_⟩
    rw [append_token_arglist, apply_in_eff_arglist]

theorem process_output_arg_extends (env : ProcEnv) (a : Value) (st st1 : CLState)
    (a1 : Value) (h : process_output_arg env a st = Except.ok (st1, a1)) :
    ∃ tail, st1.arglist = st.arglist ++ tail := by
  unfold process_output_arg at h
  cases hp : output_arg_plan env st.uuidCount a with
  | error e => rw [hp] at h; exact absurd h (by simp)
  | ok pr =>
    rw [hp] at h
    obtain ⟨argstr, eff, arg1, cnt1⟩ := pr
    injection h with h
    injection h with h1 h2
    subst h1
    refine ⟨if argstr.length > 0 then [Value.str argstr] else [], ?_⟩
    rw [append_token_arglist]
    have : ({ apply_out_eff eff st with uuidCount := cnt1 } : CLState).arglist
        = (apply_out_eff eff st).arglist := rfl
    rw [this, apply_out_eff_arglist]

theorem run_inputs_extends (args : List Value) :
    ∀ (st st1 : CLState), run_inputs args st = Except.ok st1 →
      ∃ tail, st1.arglist = st.arglist ++ tail := by
  induction args with
  | nil =>
    intro st st1 h
    unfold run_inputs at h
    injection h with h
    subst h
    exact ⟨[], by simp⟩
  | cons a rest ih =>
    intro st st1 h
    unfold run_inputs at h
    cases hp : process_input_arg a st with
    | error e => rw [hp] at h; exact absurd h (by simp)
    | ok st2 =>
      rw [hp] at h
      obtain ⟨t1, ht1⟩ := process_input_arg_extends a st st2 hp
      obtain ⟨t2, ht2⟩ := ih st2 st1 h
      exact ⟨t1 ++ t2, by rw [ht2, ht1, List.append_assoc]⟩

theorem run_outputs_extends (env : ProcEnv) (args : List Value) :
    ∀ (st st1 : CLState) (outs1 : List Value),
      run_outputs env args st = Except.ok (st1, outs1) →
      ∃ tail, st1.arglist = st.arglist ++ tail := by
  induction args with
  | nil =>
    intro st st1 outs1 h
    unfold run_outputs at h
    injection h with h
    injection h with h1 h2
    subst h1
    exact ⟨[], by simp⟩
  | cons a rest ih =>
    intro st st1 outs1 h
    unfold run_outputs at h
    cases hp : process_output_arg env a st with
    | error e => rw [hp] at h; exact absurd h (by simp)
    | ok pr =>
      rw [hp] at h
      obtain ⟨st2, a1⟩ := pr
      dsimp only at h
      cases hr : run_outputs env rest st2 with
      | error e => rw [hr] at h; exact absurd h (by simp)
      | ok pr2 =>
        rw [hr] at h
        obtain ⟨st3, rest1⟩ := pr2
        injection h with h
        injection h with h1 h2
        subst h1
        obtain ⟨t1, ht1⟩ := process_output_arg_extends env a st st2 a1 hp
        obtain ⟨t2, ht2⟩ := ih st2 st3 rest1 hr
        exact ⟨t1 ++ t2, by rw [ht2, ht1, List.append_assoc]⟩

/-- C9 counterexample: running the echo command with one plain string input
leaves the shared token list (the command list of the specification, aliased
by arglist on line 139) extended by the bound token, so it is no longer the
original command list. -/
theorem c9_command_mutation_counterexample :
    command_line_tool env0 (Value.list [Value.str "echo"]) (some [greetArg]) Option.none
        = Except.ok ([], [Value.str "echo", Value.str "hi"]) ∧
    ([Value.str "echo", Value.str "hi"] : List Value) ≠ [Value.str "echo"] :=
  ⟨rfl, fun h => List.noConfusion (List.cons.inj h).2⟩

/-- C9 amended: command_line_tool appends bound argument tokens to the very
list it received as the command (arglist aliases it), so after a successful
execution the specification command list has become the original tokens
followed by the appended tokens: the original tokens persist as a prefix, but
the list is extended in place rather than left unchanged. -/
theorem c9_command_list_extended (env : ProcEnv) (command : Value) (cs : List Value)
    (inputs outputs : Option (List Value)) (ret final : List Value)
    (hc : command = Value.list cs)
    (h : command_line_tool env command inputs outputs = Except.ok (ret, final)) :
    ∃ tail, final = cs ++ tail := by
  subst hc
  unfold command_line_tool at h
  dsimp only at h
  cases h1 : (match inputs with
      | some ins => run_inputs ins ({ arglist := cs } : CLState)
      | Option.none => Except.ok ({ arglist := cs } : CLState)) with
  | error e => rw [h1] at h; exact absurd h (by simp)
  | ok st1 =>
    rw [h1] at h
    dsimp only at h
    have hst1 : ∃ tail, st1.arglist = cs ++ tail := by
      cases inputs with
      | none =>
        injection h1 with h1
        subst h1
        exact ⟨[], by simp⟩
      | some ins => exact run_inputs_extends ins _ st1 h1
    cases h2 : (match outputs with
        | some outs => run_outputs env outs st1
        | Option.none => Except.ok (st1, ([] : List Value))) with
    | error e => rw [h2] at h; exact absurd h (by simp)
    | ok pr =>
      obtain ⟨st2, outs1⟩ := pr
      rw [h2] at h
      dsimp only at h
      have hst2 : ∃ tail, st2.arglist = st1.arglist ++ tail := by
        cases outputs with
        | none =>
          injection h2 with h2
          injection h2 with h2a h2b
          subst h2a
          exact ⟨[], by simp⟩
        | some outs => exact run_outputs_extends env outs st1 st2 outs1 h2
      cases h3 : (match outputs with
          | some _ => run_collect
              (if st2.stdout = StdStream.pipe then some env.pstdout else Option.none) outs1
          | Option.none => Except.ok ([] : List Value)) with
      | error e => rw [h3] at h; exact absurd h (by simp)
      | ok retlist =>
        rw [h3] at h
        injection h with h
        injection h with h4 h5
        obtain ⟨t1, ht1⟩ := hst1
        obtain ⟨t2, ht2⟩ := hst2
        exact ⟨t1 ++ t2, by rw [← h5, ht2, ht1, List.append_assoc]⟩

/-- Witness for the amended C9: after the echo invocation the final token list
is the original command followed by the bound token hi. -/
theorem c9_command_list_extended_witness :
    ∃ tail, ([Value.str "echo", Value.str "hi"] : List Value)
      = [Value.str "echo"] ++ tail :=
  c9_command_list_extended env0 (Value.list [Value.str "echo"]) [Value.str "echo"]
    (some [greetArg]) Option.none [] [Value.str "echo", Value.str "hi"] rfl rfl
